import Mathlib

/-!
Shallow embedding of the postfix-mongodb dictionary driver
(src/src/global/dict_mongodb.c).

Strings are modelled as `List Char`.  The external mongo client library
(mongo_client, mongo_cursor_next, mongo_reconnect, mongo_cmd_authenticate)
is modelled by an explicit environment: Booleans for the outcome of the
connect and authentication calls, and a list of per-iteration responses
for the query loop.  msg_fatal terminates the process; it is modelled as
a distinguished outcome.
-/

namespace Mongo

/-- Modelled from the spec: the numeric status constants DICT_ERR_NONE,
DICT_ERR_RETRY, DICT_STAT_SUCCESS, DICT_STAT_ERROR and DICT_STAT_FAIL come
from the dict.h header, which is not part of the source tree; the spec
requires the success, not-found and failure codes to be distinguishable,
so the constants are modelled as distinct constructors. -/
inductive DictError where
  | errNone
  | errRetry
  | statSuccess
  | statError
  | statFail
deriving DecidableEq

/-- The DICT_MONGODB handle structure (dict_mongodb.c lines 77-90):
configuration fields parsed from the table file, the connected flag, and
the error side channel stored in the parent DICT (set by
DICT_ERR_VAL_RETURN). -/
structure DICT_MONGODB where
  host : List Char
  port : Nat
  auth : Bool
  username : List Char
  password : List Char
  dbname : List Char
  collection : List Char
  key : List Char
  value : List Char
  connected : Bool
  error : DictError
deriving DecidableEq

/-- Observable actions performed against the mongo client library. -/
inductive MongoEvent where
  | connectAttempt
  | authAttempt
  | queryExec (qkey : List Char)
  | reconnectAttempt
deriving DecidableEq

def isConnectAttempt : MongoEvent → Bool
  | .connectAttempt => true
  | _ => false

def isAuthAttempt : MongoEvent → Bool
  | .authAttempt => true
  | _ => false

def isQueryExec : MongoEvent → Bool
  | .queryExec _ => true
  | _ => false

def isReconnect : MongoEvent → Bool
  | .reconnectAttempt => true
  | _ => false

/-- Number of events matching a predicate in an event trace. -/
def countEv (p : MongoEvent → Bool) (evs : List MongoEvent) : Nat :=
  (evs.filter p).length

/-- Index of the first occurrence of a character in a string (strchr). -/
def firstIdx (c : Char) : List Char → Option Nat
  | [] => none
  | x :: xs => if x = c then some 0 else Option.map (fun n => n + 1) (firstIdx c xs)

/-- Plus-addressing normalization, dict_mongodb.c lines 151-168: when the
name contains both a plus and an at character, the code copies the tail
starting at the first at character over the text starting at the first
plus character (strcpy of strchr results); under move semantics this is
take (index of first plus) ++ drop (index of first at).  Otherwise the
name is used unchanged. -/
def normalize (k : List Char) : List Char :=
  match firstIdx '+' k, firstIdx '@' k with
  | some i, some j => k.take i ++ k.drop j
  | _, _ => k

/-- The normalization the specification describes: remove the substring
from the first plus up to (but not including) the first at; when the at
comes first that substring is empty and the key is unchanged. -/
def normalizeSpec (k : List Char) : List Char :=
  match firstIdx '+' k, firstIdx '@' k with
  | some i, some j => k.take i ++ k.drop (max i j)
  | _, _ => k

/-- bson_find on the first matching document, modelled as association-list
lookup of the configured value field. -/
def bson_find (doc : List (List Char × List Char)) (field : List Char) :
    Option (List Char) :=
  match doc with
  | [] => none
  | (f, v) :: rest => if f = field then some v else bson_find rest field

/-- Response of one mongo_cursor_next call in the query loop:
a first matching document, no match (cursor exhausted, no transport
error), or a transport error (conn err is MONGO_IO_ERROR). -/
inductive CursorResp where
  | doc (d : List (List Char × List Char))
  | noMatch
  | ioError
deriving DecidableEq

/-- Environment for one iteration of the query loop: the cursor response,
whether a mongo_reconnect plus mongo_check_connection succeeds if
attempted, and whether re-authentication succeeds if attempted. -/
structure IterEnv where
  resp : CursorResp
  reconnectOk : Bool
  reauthOk : Bool
deriving DecidableEq

/-- True when the iteration is a transport error followed by a successful
reconnect (and successful re-authentication when auth is configured);
exactly the iterations that make the do-while loop repeat. -/
def isRetryCycle (a : Bool) (it : IterEnv) : Bool :=
  match it.resp with
  | .ioError => it.reconnectOk && (!a || it.reauthOk)
  | _ => false

def isIoError (it : IterEnv) : Bool :=
  match it.resp with
  | .ioError => true
  | _ => false

/-- dict_mongodb_auth (lines 253-262): when the auth option is enabled,
authenticate; on MONGO_ERROR the code calls msg_fatal, which terminates
the process (the DICT_ERR_VAL_RETURN after it is dead code).  The Boolean
result is true when the function returns, false when msg_fatal fires. -/
def dict_mongodb_auth (st : DICT_MONGODB) (authOk : Bool) :
    Bool × List MongoEvent :=
  if st.auth then (authOk, [.authAttempt]) else (true, [])

/-- Outcome of a lookup call: a normal return carrying the (possibly
absent) value and the updated handle state, process termination by
msg_fatal, or divergence (the environment trace was exhausted while the
retry loop still repeats). -/
inductive LookupOutcome where
  | ret (v : Option (List Char)) (st : DICT_MONGODB)
  | fatal
  | hang
deriving DecidableEq

/-- dict_mongodb_my_connect (lines 265-296): clear the connected flag,
call mongo_client; on failure set dict error to DICT_ERR_RETRY and return
it; otherwise set the operation timeout, run dict_mongodb_auth (which may
terminate the process), set connected to 1 and return DICT_ERR_NONE.
The Option is none when msg_fatal fired during authentication. -/
def dict_mongodb_my_connect (st : DICT_MONGODB) (connectOk authOk : Bool) :
    Option (DictError × DICT_MONGODB) × List MongoEvent :=
  let st0 : DICT_MONGODB := { st with connected := false }
  if connectOk then
    if (dict_mongodb_auth st0 authOk).1 then
      (some (.errNone, { st0 with connected := true, error := .errNone }),
        .connectAttempt :: (dict_mongodb_auth st0 authOk).2)
    else
      (none, .connectAttempt :: (dict_mongodb_auth st0 authOk).2)
  else
    (some (.errRetry, { st0 with error := .errRetry }), [.connectAttempt])

/-- The do-while query loop of dict_mongodb_lookup (lines 178-215), one
list element per iteration.  A found document with the value field breaks
out with the value; a found document without the value field, or no
match, leaves found NULL and exits the loop (error code DICT_STAT_SUCCESS
either way, lines 225-231); a transport error triggers mongo_reconnect:
on success dict_mongodb_auth runs (possibly fatally) and the loop
repeats, on failure the call returns NULL with DICT_STAT_FAIL. -/
def lookupLoop (st : DICT_MONGODB) (qkey : List Char) :
    List IterEnv → LookupOutcome × List MongoEvent
  | [] => (.hang, [])
  | it :: rest =>
    match it.resp with
    | .doc d =>
      match bson_find d st.value with
      | some v => (.ret (some v) { st with error := .statSuccess }, [.queryExec qkey])
      | none => (.ret none { st with error := .statSuccess }, [.queryExec qkey])
    | .noMatch => (.ret none { st with error := .statSuccess }, [.queryExec qkey])
    | .ioError =>
      if it.reconnectOk then
        if (dict_mongodb_auth st it.reauthOk).1 then
          ((lookupLoop st qkey rest).1,
            .queryExec qkey :: .reconnectAttempt ::
              ((dict_mongodb_auth st it.reauthOk).2 ++ (lookupLoop st qkey rest).2))
        else
          (.fatal, .queryExec qkey :: .reconnectAttempt ::
            (dict_mongodb_auth st it.reauthOk).2)
      else
        (.ret none { st with error := .statFail },
          [.queryExec qkey, .reconnectAttempt])

/-- dict_mongodb_lookup (lines 130-232): if the handle is not connected,
connect first and return NULL with DICT_STAT_ERROR when that fails; then
build the query with the plus-addressing-normalized key and run the
query loop. -/
def dict_mongodb_lookup (st : DICT_MONGODB) (name : List Char)
    (connectOk authOk : Bool) (iters : List IterEnv) :
    LookupOutcome × List MongoEvent :=
  if st.connected then
    lookupLoop st (normalize name) iters
  else
    match dict_mongodb_my_connect st connectOk authOk with
    | (none, evs) => (.fatal, evs)
    | (some (code, st1), evs) =>
      if code = .errNone then
        ((lookupLoop st1 (normalize name) iters).1,
          evs ++ (lookupLoop st1 (normalize name) iters).2)
      else
        (.ret none { st1 with error := .statError }, evs)

/-- dict_mongodb_open (lines 300-326): allocate the handle, parse the
configuration into its fields (the input state st, whose connected and
error fields model the uninitialized malloc contents), then eagerly call
dict_mongodb_my_connect, ignoring its return code.  none models process
termination by msg_fatal during the authentication step. -/
def dict_mongodb_open (st : DICT_MONGODB) (connectOk authOk : Bool) :
    Option DICT_MONGODB × List MongoEvent :=
  match dict_mongodb_my_connect st connectOk authOk with
  | (none, evs) => (none, evs)
  | (some (_, st1), evs) => (some st1, evs)

/-- A concrete handle used by concrete-input theorems. -/
def cfgSt : DICT_MONGODB :=
  { host := ['h'], port := 27017, auth := false, username := [], password := [],
    dbname := ['d'], collection := ['c'], key := ['k'], value := ['v'],
    connected := true, error := .errNone }

/-! Helper lemmas about firstIdx and normalize. -/

theorem firstIdx_eq_none (c : Char) (l : List Char) (h : c ∉ l) :
    firstIdx c l = none := by
  induction l with
  | nil => rfl
  | cons x xs ih =>
    simp only [List.mem_cons, not_or] at h
    simp only [firstIdx]
    rw [if_neg (fun hx => h.1 hx.symm), ih h.2]
    rfl

theorem not_mem_of_firstIdx_none (c : Char) (l : List Char)
    (h : firstIdx c l = none) : c ∉ l := by
  induction l with
  | nil => simp
  | cons x xs ih =>
    simp only [firstIdx] at h
    by_cases hx : x = c
    · rw [if_pos hx] at h
      exact absurd h (by simp)
    · rw [if_neg hx] at h
      cases hf : firstIdx c xs with
      | none =>
        intro hm
        rcases List.mem_cons.mp hm with h1 | h1
        · exact hx h1.symm
        · exact (ih hf) h1
      | some i0 =>
        rw [hf] at h
        exact absurd h (by simp)

theorem not_mem_take_firstIdx (c : Char) (l : List Char) (i : Nat)
    (h : firstIdx c l = some i) : c ∉ l.take i := by
  induction l generalizing i with
  | nil => simp [firstIdx] at h
  | cons x xs ih =>
    simp only [firstIdx] at h
    by_cases hx : x = c
    · rw [if_pos hx] at h
      injection h with h
      subst h
      simp
    · rw [if_neg hx] at h
      cases hf : firstIdx c xs with
      | none => rw [hf] at h; exact absurd h (by simp)
      | some i0 =>
        rw [hf] at h
        simp only [Option.map_some'] at h
        injection h with h
        subst h
        rw [List.take_succ_cons]
        intro hm
        rcases List.mem_cons.mp hm with h1 | h1
        · exact hx h1.symm
        · exact ih i0 hf h1

theorem drop_firstIdx (c : Char) (l : List Char) (i : Nat)
    (h : firstIdx c l = some i) : l.drop i = c :: l.drop (i + 1) := by
  induction l generalizing i with
  | nil => simp [firstIdx] at h
  | cons x xs ih =>
    simp only [firstIdx] at h
    by_cases hx : x = c
    · rw [if_pos hx] at h
      injection h with h
      subst h
      simp [hx]
    · rw [if_neg hx] at h
      cases hf : firstIdx c xs with
      | none => rw [hf] at h; exact absurd h (by simp)
      | some i0 =>
        rw [hf] at h
        simp only [Option.map_some'] at h
        injection h with h
        subst h
        simpa using ih i0 hf

theorem normalize_none_plus (k : List Char) (h : firstIdx '+' k = none) :
    normalize k = k := by
  unfold normalize
  rw [h]

theorem normalize_none_at (k : List Char) (h : firstIdx '@' k = none) :
    normalize k = k := by
  unfold normalize
  cases hp : firstIdx '+' k <;> rw [h]

theorem normalize_some_some (k : List Char) (i j : Nat)
    (hp : firstIdx '+' k = some i) (ha : firstIdx '@' k = some j) :
    normalize k = k.take i ++ k.drop j := by
  unfold normalize
  rw [hp, ha]

theorem normalizeSpec_some_some (k : List Char) (i j : Nat)
    (hp : firstIdx '+' k = some i) (ha : firstIdx '@' k = some j) :
    normalizeSpec k = k.take i ++ k.drop (max i j) := by
  unfold normalizeSpec
  rw [hp, ha]

/-! Loop lemmas. -/

theorem lookupLoop_query_key (st : DICT_MONGODB) (qkey : List Char) :
    ∀ iters q, MongoEvent.queryExec q ∈ (lookupLoop st qkey iters).2 → q = qkey := by
  intro iters
  induction iters with
  | nil => intro q hq; simp [lookupLoop] at hq
  | cons it rest ih =>
    intro q hq
    rcases it with ⟨resp, rok, aok⟩
    cases resp with
    | doc d =>
      cases hb : bson_find d st.value <;> simp [lookupLoop, hb] at hq <;> exact hq
    | noMatch =>
      simp [lookupLoop] at hq
      exact hq
    | ioError =>
      cases rok with
      | false =>
        simp [lookupLoop] at hq
        exact hq
      | true =>
        cases hau : st.auth with
        | false =>
          simp [lookupLoop, dict_mongodb_auth, hau] at hq
          rcases hq with hq | hq
          · exact hq
          · exact ih q hq
        | true =>
          cases aok with
          | false =>
            simp [lookupLoop, dict_mongodb_auth, hau] at hq
            exact hq
          | true =>
            simp [lookupLoop, dict_mongodb_auth, hau] at hq
            rcases hq with hq | hq
            · exact hq
            · exact ih q hq

theorem lookupLoop_no_connect (st : DICT_MONGODB) (qkey : List Char) :
    ∀ iters, countEv isConnectAttempt (lookupLoop st qkey iters).2 = 0 := by
  intro iters
  induction iters with
  | nil => simp [lookupLoop, countEv]
  | cons it rest ih =>
    rcases it with ⟨resp, rok, aok⟩
    cases resp with
    | doc d =>
      cases hb : bson_find d st.value <;>
        simp [lookupLoop, hb, countEv, isConnectAttempt]
    | noMatch => simp [lookupLoop, countEv, isConnectAttempt]
    | ioError =>
      cases rok with
      | false => simp [lookupLoop, countEv, isConnectAttempt]
      | true =>
        cases hau : st.auth with
        | false =>
          simp only [countEv] at ih
          simp [lookupLoop, dict_mongodb_auth, hau, countEv, isConnectAttempt, ih]
        | true =>
          cases aok with
          | false => simp [lookupLoop, dict_mongodb_auth, hau, countEv, isConnectAttempt, isAuthAttempt]
          | true =>
            simp only [countEv] at ih
            simp [lookupLoop, dict_mongodb_auth, hau, countEv, isConnectAttempt, ih]

theorem lookupLoop_preserves (st : DICT_MONGODB) (qkey : List Char) :
    ∀ iters v st1, (lookupLoop st qkey iters).1 = .ret v st1 →
      ∃ e, st1 = { st with error := e } := by
  intro iters
  induction iters with
  | nil => intro v st1 h; simp [lookupLoop] at h
  | cons it rest ih =>
    intro v st1 h
    rcases it with ⟨resp, rok, aok⟩
    cases resp with
    | doc d =>
      cases hb : bson_find d st.value <;> simp [lookupLoop, hb] at h <;>
        exact ⟨.statSuccess, h.2.symm⟩
    | noMatch =>
      simp [lookupLoop] at h
      exact ⟨.statSuccess, h.2.symm⟩
    | ioError =>
      cases rok with
      | false =>
        simp [lookupLoop] at h
        exact ⟨.statFail, h.2.symm⟩
      | true =>
        cases hau : st.auth with
        | false =>
          simp [lookupLoop, dict_mongodb_auth, hau] at h
          simpa only [hau] using ih v st1 h
        | true =>
          cases aok with
          | false => simp [lookupLoop, dict_mongodb_auth, hau] at h
          | true =>
            simp [lookupLoop, dict_mongodb_auth, hau] at h
            simpa only [hau] using ih v st1 h

theorem lookupLoop_hang (st : DICT_MONGODB) (qkey : List Char) :
    ∀ iters, (lookupLoop st qkey iters).1 = .hang →
      ∀ it ∈ iters, isRetryCycle st.auth it = true := by
  intro iters
  induction iters with
  | nil => intro _ it hit; simp at hit
  | cons it0 rest ih =>
    intro h it hit
    rcases it0 with ⟨resp, rok, aok⟩
    cases resp with
    | doc d =>
      cases hb : bson_find d st.value <;> simp [lookupLoop, hb] at h
    | noMatch => simp [lookupLoop] at h
    | ioError =>
      cases rok with
      | false => simp [lookupLoop] at h
      | true =>
        cases hau : st.auth with
        | false =>
          simp [lookupLoop, dict_mongodb_auth, hau] at h
          rcases List.mem_cons.mp hit with h1 | h1
          · subst h1; simp [isRetryCycle, hau]
          · simpa only [hau] using ih h it h1
        | true =>
          cases aok with
          | false => simp [lookupLoop, dict_mongodb_auth, hau] at h
          | true =>
            simp [lookupLoop, dict_mongodb_auth, hau] at h
            rcases List.mem_cons.mp hit with h1 | h1
            · subst h1; simp [isRetryCycle, hau]
            · simpa only [hau] using ih h it h1

theorem lookupLoop_reconnect_le (st : DICT_MONGODB) (qkey : List Char) :
    ∀ iters, countEv isReconnect (lookupLoop st qkey iters).2
      ≤ (iters.filter isIoError).length := by
  intro iters
  induction iters with
  | nil => simp [lookupLoop, countEv]
  | cons it rest ih =>
    rcases it with ⟨resp, rok, aok⟩
    cases resp with
    | doc d =>
      cases hb : bson_find d st.value <;>
        simp [lookupLoop, hb, countEv, isReconnect, isIoError, List.filter]
    | noMatch => simp [lookupLoop, countEv, isReconnect, isIoError, List.filter]
    | ioError =>
      cases rok with
      | false =>
        simp [lookupLoop, countEv, isReconnect, isIoError, List.filter]
      | true =>
        cases hau : st.auth with
        | false =>
          simp only [countEv] at ih
          simp [lookupLoop, dict_mongodb_auth, hau, countEv, isReconnect, isIoError,
            List.filter_cons, List.filter_append]
          omega
        | true =>
          cases aok with
          | false =>
            simp [lookupLoop, dict_mongodb_auth, hau, countEv, isReconnect, isIoError,
              isAuthAttempt, List.filter_cons]
          | true =>
            simp only [countEv] at ih
            simp [lookupLoop, dict_mongodb_auth, hau, countEv, isReconnect, isIoError,
              List.filter_cons, List.filter_append]
            omega

/-! Connect-level helper lemmas. -/

theorem my_connect_no_query (st : DICT_MONGODB) (c a : Bool) :
    countEv isQueryExec (dict_mongodb_my_connect st c a).2 = 0 := by
  cases c with
  | false => simp [dict_mongodb_my_connect, countEv, isQueryExec]
  | true =>
    cases hau : st.auth with
    | false => simp [dict_mongodb_my_connect, dict_mongodb_auth, hau, countEv, isQueryExec]
    | true =>
      cases a <;>
        simp [dict_mongodb_my_connect, dict_mongodb_auth, hau, countEv, isQueryExec]

theorem my_connect_one_attempt (st : DICT_MONGODB) (c a : Bool) :
    countEv isConnectAttempt (dict_mongodb_my_connect st c a).2 = 1 := by
  cases c with
  | false => simp [dict_mongodb_my_connect, countEv, isConnectAttempt]
  | true =>
    cases hau : st.auth with
    | false => simp [dict_mongodb_my_connect, dict_mongodb_auth, hau, countEv, isConnectAttempt]
    | true =>
      cases a <;>
        simp [dict_mongodb_my_connect, dict_mongodb_auth, hau, countEv, isConnectAttempt, isAuthAttempt]

theorem my_connect_query_not_mem (st : DICT_MONGODB) (c a : Bool) (q : List Char) :
    MongoEvent.queryExec q ∉ (dict_mongodb_my_connect st c a).2 := by
  cases c with
  | false => simp [dict_mongodb_my_connect]
  | true =>
    cases hau : st.auth with
    | false => simp [dict_mongodb_my_connect, dict_mongodb_auth, hau]
    | true =>
      cases a <;> simp [dict_mongodb_my_connect, dict_mongodb_auth, hau]

theorem my_connect_fail (st : DICT_MONGODB) (a : Bool) :
    dict_mongodb_my_connect st false a =
      (some (.errRetry, { st with connected := false, error := .errRetry }),
        [.connectAttempt]) := by
  simp [dict_mongodb_my_connect]

/-- Keys in which no plus character occurs after the first at character
(vacuously including keys with no at character). -/
def noPlusAfterAt (k : List Char) : Bool :=
  match firstIdx '@' k with
  | none => true
  | some j =>
    match firstIdx '+' (k.drop (j + 1)) with
    | none => true
    | some _ => false

/-- C1 counterexample: with a connected handle and an environment in which
the first two query executions hit transport I/O errors and both
reconnects succeed, a single lookup call performs two reconnect-and-retry
cycles (and still returns normally), so the claimed bound of at most one
reconnect-and-retry cycle per call does not hold on the code. -/
theorem lookup_two_reconnects_in_one_call :
    countEv isReconnect (dict_mongodb_lookup cfgSt ['k'] true true
      [⟨.ioError, true, true⟩, ⟨.ioError, true, true⟩, ⟨.noMatch, true, true⟩]).2 = 2 ∧
    (dict_mongodb_lookup cfgSt ['k'] true true
      [⟨.ioError, true, true⟩, ⟨.ioError, true, true⟩, ⟨.noMatch, true, true⟩]).1
      = .ret none { cfgSt with error := .statSuccess } :=
  ⟨by decide, by decide⟩

/-- C1 (amended): every transport I/O error detected while executing the
query triggers one reconnect attempt, and never more reconnects happen
than I/O-error responses; a failed reconnect makes the call return NULL
with DICT_STAT_FAIL at once; and the loop fails to return only when every
consumed response is an I/O error whose reconnect (and re-authentication
when configured) succeeds — so a lookup terminates as soon as any query
execution avoids a transport error or any reconnect fails, but the
reconnect-and-retry cycle is not bounded by one per call. -/
theorem lookup_retry_cycle_behavior :
    (∀ st qkey iters, countEv isReconnect (lookupLoop st qkey iters).2
        ≤ (iters.filter isIoError).length) ∧
    (∀ st qkey it rest, it.resp = .ioError → it.reconnectOk = false →
        (lookupLoop st qkey (it :: rest)).1
          = .ret none { st with error := .statFail }) ∧
    (∀ st qkey iters, (lookupLoop st qkey iters).1 = .hang →
        ∀ it ∈ iters, isRetryCycle st.auth it = true) := by
  refine ⟨fun st qkey iters => lookupLoop_reconnect_le st qkey iters, ?_,
    fun st qkey iters => lookupLoop_hang st qkey iters⟩
  intro st qkey it rest h1 h2
  rcases it with ⟨resp, rok, aok⟩
  simp only at h1 h2
  subst h1
  subst h2
  simp [lookupLoop]

/-- Witness for the C1 amended theorem at a concrete input. -/
theorem lookup_retry_cycle_behavior_witness :
    (lookupLoop cfgSt ['k'] [⟨.ioError, false, true⟩]).1
      = .ret none { cfgSt with error := .statFail } :=
  lookup_retry_cycle_behavior.2.1 cfgSt ['k'] ⟨.ioError, false, true⟩ [] rfl rfl

/-- C2 counterexample: for the key a@b+c, which contains both characters
but whose first at precedes its first plus, the code produces a@b@b+c —
a string longer than the original (so it does not fit the allocated
strlen+1 buffer: the overlapping strcpy is a buffer overflow), and not
the original key with the plus-to-at substring removed (the wording of
the specification, which here removes nothing); the grown string is also
exactly the key the query executes with. -/
theorem normalize_at_before_plus_mismatch :
    normalize ['a', '@', 'b', '+', 'c'] = ['a', '@', 'b', '@', 'b', '+', 'c'] ∧
    normalizeSpec ['a', '@', 'b', '+', 'c'] = ['a', '@', 'b', '+', 'c'] ∧
    (['a', '@', 'b', '+', 'c'] : List Char).length
      < (normalize ['a', '@', 'b', '+', 'c']).length ∧
    (dict_mongodb_lookup cfgSt ['a', '@', 'b', '+', 'c'] true true
      [⟨.noMatch, true, true⟩]).2
      = [.queryExec ['a', '@', 'b', '@', 'b', '+', 'c']] :=
  ⟨by decide, by decide, by decide, by decide⟩

/-- C2 (amended): for every key whose first plus character precedes its
first at character, the key used in the query is the original key with
the substring from the first plus up to (but not including) the first at
removed, agreeing with the specification wording; a key lacking either
character is used unchanged; and every query execution inside a lookup
call uses exactly the normalized key. -/
theorem normalize_plus_addressing :
    (∀ k i j, firstIdx '+' k = some i → firstIdx '@' k = some j → i < j →
        normalize k = k.take i ++ k.drop j ∧ normalize k = normalizeSpec k) ∧
    (∀ k, firstIdx '+' k = none ∨ firstIdx '@' k = none → normalize k = k) ∧
    (∀ st name c a iters q,
        MongoEvent.queryExec q ∈ (dict_mongodb_lookup st name c a iters).2 →
        q = normalize name) := by
  refine ⟨?_, ?_, ?_⟩
  · intro k i j hp ha hij
    refine ⟨normalize_some_some k i j hp ha, ?_⟩
    rw [normalize_some_some k i j hp ha, normalizeSpec_some_some k i j hp ha,
      Nat.max_eq_right (Nat.le_of_lt hij)]
  · intro k h
    rcases h with h | h
    · exact normalize_none_plus k h
    · exact normalize_none_at k h
  · intro st name c a iters q hq
    unfold dict_mongodb_lookup at hq
    by_cases hc : st.connected
    · rw [if_pos hc] at hq
      exact lookupLoop_query_key st (normalize name) iters q hq
    · rw [if_neg hc] at hq
      cases c with
      | false =>
        rw [my_connect_fail st a] at hq
        simp at hq
      | true =>
        cases hau : st.auth with
        | false =>
          simp [dict_mongodb_my_connect, dict_mongodb_auth, hau] at hq
          exact lookupLoop_query_key _ (normalize name) iters q hq
        | true =>
          cases a with
          | false =>
            simp [dict_mongodb_my_connect, dict_mongodb_auth, hau] at hq
          | true =>
            simp [dict_mongodb_my_connect, dict_mongodb_auth, hau] at hq
            exact lookupLoop_query_key _ (normalize name) iters q hq

/-- Witness for the C2 amended theorem at concrete inputs. -/
theorem normalize_plus_addressing_witness :
    normalize ['a', '+', 'b', '@', 'c'] = ['a', '@', 'c'] ∧
    normalize ['a', 'b'] = ['a', 'b'] :=
  ⟨((normalize_plus_addressing.1 ['a', '+', 'b', '@', 'c'] 1 3
      (by decide) (by decide) (by decide)).1).trans (by decide),
   normalize_plus_addressing.2.1 ['a', 'b'] (Or.inl (by decide))⟩

/-- C8 counterexample: normalization is not idempotent on the code — for
a+b@c+d@e one application yields a@c+d@e, whose first at now precedes its
remaining plus, and a second application changes the string again. -/
theorem normalize_not_idempotent :
    normalize (normalize ['a', '+', 'b', '@', 'c', '+', 'd', '@', 'e'])
      ≠ normalize ['a', '+', 'b', '@', 'c', '+', 'd', '@', 'e'] := by
  decide

/-- C8 (amended): normalization is idempotent on every key in which no
plus character occurs after the first at character — in particular on
every key lacking a plus or lacking an at, and on every plus-address of
the form local+detail@domain. -/
theorem normalize_idempotent_no_plus_after_at (k : List Char)
    (h : noPlusAfterAt k = true) : normalize (normalize k) = normalize k := by
  cases hp : firstIdx '+' k with
  | none =>
    have he := normalize_none_plus k hp
    rw [he, he]
  | some i =>
    cases ha : firstIdx '@' k with
    | none =>
      have he := normalize_none_at k ha
      rw [he, he]
    | some j =>
      have hr := normalize_some_some k i j hp ha
      have h2 : '+' ∉ k.drop (j + 1) := by
        unfold noPlusAfterAt at h
        rw [ha] at h
        cases hq : firstIdx '+' (k.drop (j + 1)) with
        | none => exact not_mem_of_firstIdx_none '+' _ hq
        | some m => simp [hq] at h
      have h3 : '+' ∉ k.drop j := by
        rw [drop_firstIdx '@' k j ha]
        intro hm
        rcases List.mem_cons.mp hm with h4 | h4
        · exact absurd h4 (by decide)
        · exact h2 h4
      have h5 : '+' ∉ k.take i ++ k.drop j := by
        intro hm
        rcases List.mem_append.mp hm with h6 | h6
        · exact not_mem_take_firstIdx '+' k i hp h6
        · exact h3 h6
      rw [hr]
      exact normalize_none_plus _ (firstIdx_eq_none '+' _ h5)

/-- Witness for the C8 amended theorem at a concrete input. -/
theorem normalize_idempotent_no_plus_after_at_witness :
    noPlusAfterAt ['a', '+', 'b', '@', 'c'] = true ∧
    normalize (normalize ['a', '+', 'b', '@', 'c'])
      = normalize ['a', '+', 'b', '@', 'c'] :=
  ⟨by decide, normalize_idempotent_no_plus_after_at ['a', '+', 'b', '@', 'c'] (by decide)⟩

/-- C3 counterexample: with a connected handle, a query that matches a
document containing only a field e (value x) while the configured value
field is v returns NULL with DICT_STAT_SUCCESS — the not-found result —
rather than the entire matched document as an opaque value. -/
theorem lookup_missing_value_field_returns_absent :
    (dict_mongodb_lookup cfgSt ['k'] true true
      [⟨.doc [(['e'], ['x'])], true, true⟩]).1
      = .ret none { cfgSt with error := .statSuccess } := by
  decide

/-- C3 (amended): for every lookup in which the query matches a document
that does not contain the configured value field, the lookup returns the
not-found result (NULL value with DICT_STAT_SUCCESS), not the document. -/
theorem lookup_missing_value_field_not_found :
    ∀ st name c a d rok aok rest, st.connected = true →
      bson_find d st.value = none →
      (dict_mongodb_lookup st name c a (⟨.doc d, rok, aok⟩ :: rest)).1
        = .ret none { st with error := .statSuccess } := by
  intro st name c a d rok aok rest hc hb
  simp [dict_mongodb_lookup, hc, lookupLoop, hb]

/-- Witness for the C3 amended theorem at a concrete input. -/
theorem lookup_missing_value_field_not_found_witness :
    cfgSt.connected = true ∧ bson_find [(['a'], ['b'])] cfgSt.value = none ∧
    (dict_mongodb_lookup cfgSt ['m'] false false
      [⟨.doc [(['a'], ['b'])], false, false⟩]).1
      = .ret none { cfgSt with error := .statSuccess } :=
  ⟨rfl, by decide,
   lookup_missing_value_field_not_found cfgSt ['m'] false false
     [(['a'], ['b'])] false false [] rfl (by decide)⟩

/-- C4 counterexample: opening a handle with a reachable backend performs
a connect attempt and returns with the connected flag already set, so it
is not the case that no connection has been established when open
returns. -/
theorem open_connects_eagerly :
    (dict_mongodb_open { cfgSt with connected := false } true true).1
      = some { cfgSt with connected := true, error := .errNone } ∧
    countEv isConnectAttempt
      (dict_mongodb_open { cfgSt with connected := false } true true).2 = 1 :=
  ⟨by decide, by decide⟩

/-- C4 (amended): open loads the configuration and then eagerly performs
exactly one connect attempt; when open returns a handle, its connected
flag is set exactly when the client connection (and the authentication
step, when the auth option is enabled) succeeded, and a failed eager
connect leaves the handle disconnected for the first lookup to retry. -/
theorem open_eager_connect_behavior :
    (∀ st c a, countEv isConnectAttempt (dict_mongodb_open st c a).2 = 1) ∧
    (∀ st c a st1, (dict_mongodb_open st c a).1 = some st1 →
        st1.connected = (c && (!st.auth || a))) := by
  constructor
  · intro st c a
    have h1 := my_connect_one_attempt st c a
    unfold dict_mongodb_open
    rcases hm : dict_mongodb_my_connect st c a with ⟨o, evs⟩
    rw [hm] at h1
    cases o with
    | none => simpa using h1
    | some pr =>
      rcases pr with ⟨code, st1⟩
      simpa using h1
  · intro st c a st1 h
    cases c with
    | false =>
      unfold dict_mongodb_open at h
      rw [my_connect_fail st a] at h
      simp at h
      rw [← h]
      simp
    | true =>
      cases hau : st.auth with
      | false =>
        unfold dict_mongodb_open at h
        simp [dict_mongodb_my_connect, dict_mongodb_auth, hau] at h
        rw [← h]
        simp
      | true =>
        cases a with
        | false =>
          unfold dict_mongodb_open at h
          simp [dict_mongodb_my_connect, dict_mongodb_auth, hau] at h
        | true =>
          unfold dict_mongodb_open at h
          simp [dict_mongodb_my_connect, dict_mongodb_auth, hau] at h
          rw [← h]
          simp

/-- Witness for the C4 amended theorem at a concrete input. -/
theorem open_eager_connect_behavior_witness :
    countEv isConnectAttempt (dict_mongodb_open cfgSt true true).2 = 1 ∧
    ({ cfgSt with connected := true, error := DictError.errNone } :
        DICT_MONGODB).connected = (true && (!cfgSt.auth || true)) :=
  ⟨open_eager_connect_behavior.1 cfgSt true true,
   open_eager_connect_behavior.2 cfgSt true true
     { cfgSt with connected := true, error := DictError.errNone } (by decide)⟩

/-- C5 (confirmed): with a connected handle, a query over a collection
with no matching document returns NULL with the success status code
DICT_STAT_SUCCESS; the two backend-unavailability outcomes — failure of
the initial connect and failure of a reconnect — return NULL with
DICT_STAT_ERROR and DICT_STAT_FAIL respectively, and both of those codes
differ from the success code, so a not-found lookup is never reported as
an error. -/
theorem lookup_not_found_distinct_from_failure :
    (∀ st name c a rok aok rest, st.connected = true →
        (dict_mongodb_lookup st name c a (⟨.noMatch, rok, aok⟩ :: rest)).1
          = .ret none { st with error := .statSuccess }) ∧
    (∀ st name a iters, st.connected = false →
        (dict_mongodb_lookup st name false a iters).1
          = .ret none { st with connected := false, error := .statError }) ∧
    (∀ st name c a aok rest, st.connected = true →
        (dict_mongodb_lookup st name c a (⟨.ioError, false, aok⟩ :: rest)).1
          = .ret none { st with error := .statFail }) ∧
    DictError.statSuccess ≠ DictError.statError ∧
    DictError.statSuccess ≠ DictError.statFail := by
  refine ⟨?_, ?_, ?_, by simp, by simp⟩
  · intro st name c a rok aok rest hc
    simp [dict_mongodb_lookup, hc, lookupLoop]
  · intro st name a iters hc
    simp [dict_mongodb_lookup, hc, my_connect_fail]
  · intro st name c a aok rest hc
    simp [dict_mongodb_lookup, hc, lookupLoop]

/-- Witness for the C5 theorem at concrete inputs. -/
theorem lookup_not_found_distinct_from_failure_witness :
    (dict_mongodb_lookup cfgSt ['k'] true true [⟨.noMatch, true, true⟩]).1
      = .ret none { cfgSt with error := .statSuccess } ∧
    (dict_mongodb_lookup { cfgSt with connected := false } ['k'] false true []).1
      = .ret none { cfgSt with connected := false, error := .statError } ∧
    (dict_mongodb_lookup cfgSt ['k'] true true [⟨.ioError, false, true⟩]).1
      = .ret none { cfgSt with error := .statFail } :=
  ⟨lookup_not_found_distinct_from_failure.1 cfgSt ['k'] true true true true [] rfl,
   lookup_not_found_distinct_from_failure.2.1
     { cfgSt with connected := false } ['k'] true [] rfl,
   lookup_not_found_distinct_from_failure.2.2.1 cfgSt ['k'] true true true [] rfl⟩

/-- C6 (confirmed): when the handle is already connected, a lookup call
performs no connect attempt; when it is not connected and the connect
attempt fails, the call returns NULL with DICT_STAT_ERROR after exactly
that one connect attempt and without executing any query. -/
theorem lookup_ensure_connected :
    (∀ st name c a iters, st.connected = true →
        countEv isConnectAttempt (dict_mongodb_lookup st name c a iters).2 = 0) ∧
    (∀ st name a iters, st.connected = false →
        (dict_mongodb_lookup st name false a iters).1
          = .ret none { st with connected := false, error := .statError } ∧
        countEv isQueryExec (dict_mongodb_lookup st name false a iters).2 = 0 ∧
        countEv isConnectAttempt (dict_mongodb_lookup st name false a iters).2 = 1) := by
  constructor
  · intro st name c a iters hc
    simp [dict_mongodb_lookup, hc, lookupLoop_no_connect]
  · intro st name a iters hc
    refine ⟨?_, ?_, ?_⟩ <;>
      simp [dict_mongodb_lookup, hc, my_connect_fail, countEv,
        isQueryExec, isConnectAttempt]

/-- Witness for the C6 theorem at concrete inputs. -/
theorem lookup_ensure_connected_witness :
    countEv isConnectAttempt
      (dict_mongodb_lookup cfgSt ['k'] true true [⟨.noMatch, true, true⟩]).2 = 0 ∧
    (dict_mongodb_lookup { cfgSt with connected := false } ['k'] false true []).1
      = .ret none { cfgSt with connected := false, error := .statError } ∧
    countEv isQueryExec
      (dict_mongodb_lookup { cfgSt with connected := false } ['k'] false true []).2 = 0 :=
  ⟨lookup_ensure_connected.1 cfgSt ['k'] true true [⟨.noMatch, true, true⟩] rfl,
   (lookup_ensure_connected.2 { cfgSt with connected := false } ['k'] true [] rfl).1,
   (lookup_ensure_connected.2 { cfgSt with connected := false } ['k'] true [] rfl).2.1⟩

/-- C7 (confirmed): when the auth option is enabled and the store rejects
the credentials, both the connect path and the reconnect path of a lookup
end in msg_fatal — terminating the resolver instance — after exactly one
authentication attempt (no retry loop); and the fatal outcome differs
from every normal return, in particular from the not-found result and
from the transport-failure results. -/
theorem auth_failure_fatal_once :
    (∀ st name iters, st.auth = true → st.connected = false →
        (dict_mongodb_lookup st name true false iters).1 = .fatal ∧
        countEv isAuthAttempt (dict_mongodb_lookup st name true false iters).2 = 1) ∧
    (∀ st qkey rest, st.auth = true →
        (lookupLoop st qkey (⟨.ioError, true, false⟩ :: rest)).1 = .fatal ∧
        countEv isAuthAttempt
          (lookupLoop st qkey (⟨.ioError, true, false⟩ :: rest)).2 = 1) ∧
    (∀ v st1, (LookupOutcome.fatal : LookupOutcome) ≠ .ret v st1) := by
  refine ⟨?_, ?_, ?_⟩
  · intro st name iters hau hc
    constructor <;>
      simp [dict_mongodb_lookup, hc, dict_mongodb_my_connect, dict_mongodb_auth,
        hau, countEv, isAuthAttempt]
  · intro st qkey rest hau
    constructor <;>
      simp [lookupLoop, dict_mongodb_auth, hau, countEv, isAuthAttempt]
  · intro v st1
    simp

/-- Witness for the C7 theorem at a concrete input. -/
theorem auth_failure_fatal_once_witness :
    (dict_mongodb_lookup { cfgSt with auth := true, connected := false }
        ['k'] true false []).1 = .fatal ∧
    countEv isAuthAttempt
      (dict_mongodb_lookup { cfgSt with auth := true, connected := false }
        ['k'] true false []).2 = 1 ∧
    (lookupLoop { cfgSt with auth := true } ['k']
        [⟨.ioError, true, false⟩]).1 = .fatal :=
  ⟨(auth_failure_fatal_once.1 { cfgSt with auth := true, connected := false }
      ['k'] [] rfl rfl).1,
   (auth_failure_fatal_once.1 { cfgSt with auth := true, connected := false }
      ['k'] [] rfl rfl).2,
   (auth_failure_fatal_once.2.1 { cfgSt with auth := true } ['k'] [] rfl).1⟩

/-- C9 (confirmed): whenever a lookup call returns, the configuration
fields of the handle — host, port, auth flag, username, password, dbname,
collection, key field and value field — are unchanged; only the connected
flag and the error side channel are ever written. -/
theorem lookup_preserves_config :
    ∀ st name c a iters v st1,
      (dict_mongodb_lookup st name c a iters).1 = .ret v st1 →
      st1.host = st.host ∧ st1.port = st.port ∧ st1.auth = st.auth ∧
      st1.username = st.username ∧ st1.password = st.password ∧
      st1.dbname = st.dbname ∧ st1.collection = st.collection ∧
      st1.key = st.key ∧ st1.value = st.value := by
  intro st name c a iters v st1 h
  unfold dict_mongodb_lookup at h
  by_cases hc : st.connected
  · rw [if_pos hc] at h
    obtain ⟨e, he⟩ := lookupLoop_preserves st (normalize name) iters v st1 h
    subst he
    simp
  · rw [if_neg hc] at h
    cases c with
    | false =>
      rw [my_connect_fail st a] at h
      simp at h
      rw [← h.2]
      simp
    | true =>
      cases hau : st.auth with
      | false =>
        simp [dict_mongodb_my_connect, dict_mongodb_auth, hau] at h
        obtain ⟨e, he⟩ := lookupLoop_preserves _ (normalize name) iters v st1 h
        subst he
        simp [hau]
      | true =>
        cases a with
        | false =>
          simp [dict_mongodb_my_connect, dict_mongodb_auth, hau] at h
        | true =>
          simp [dict_mongodb_my_connect, dict_mongodb_auth, hau] at h
          obtain ⟨e, he⟩ := lookupLoop_preserves _ (normalize name) iters v st1 h
          subst he
          simp [hau]

/-- Witness for the C9 theorem at a concrete input. -/
theorem lookup_preserves_config_witness :
    ({ cfgSt with error := DictError.statSuccess } : DICT_MONGODB).value
      = cfgSt.value :=
  (lookup_preserves_config cfgSt ['k'] true true [⟨.noMatch, true, true⟩] none
    { cfgSt with error := .statSuccess } (by decide)).2.2.2.2.2.2.2.2

/-- C10 (confirmed): the connect routine clears the connected flag before
attempting the client connection, so a failed connect always leaves the
flag cleared whatever its previous value; the flag is set exactly when
the routine returns DICT_ERR_NONE, which requires the client connection
to succeed and, when the auth option is enabled, the authentication step
to succeed; a failed eager connect during open returns a handle with the
flag cleared; and a lookup on a handle with the flag cleared re-attempts
the connection as its very first action. -/
theorem connected_flag_faithful :
    (∀ st a, dict_mongodb_my_connect st false a =
        (some (.errRetry, { st with connected := false, error := .errRetry }),
          [.connectAttempt])) ∧
    (∀ st c a code st1 evs,
        dict_mongodb_my_connect st c a = (some (code, st1), evs) →
        (st1.connected = true ↔ code = .errNone) ∧
        (st1.connected = true → c = true ∧ (st.auth = true → a = true))) ∧
    (∀ st a, (dict_mongodb_open st false a).1
        = some { st with connected := false, error := .errRetry }) ∧
    (∀ st name c a iters, st.connected = false →
        (dict_mongodb_lookup st name c a iters).2.head? = some .connectAttempt) := by
  refine ⟨fun st a => my_connect_fail st a, ?_, ?_, ?_⟩
  · intro st c a code st1 evs h
    cases c with
    | false =>
      rw [my_connect_fail st a] at h
      simp at h
      rw [← h.1.2, ← h.1.1]
      simp
    | true =>
      cases hau : st.auth with
      | false =>
        simp [dict_mongodb_my_connect, dict_mongodb_auth, hau] at h
        rw [← h.1.2, ← h.1.1]
        simp
      | true =>
        cases a with
        | false =>
          simp [dict_mongodb_my_connect, dict_mongodb_auth, hau] at h
        | true =>
          simp [dict_mongodb_my_connect, dict_mongodb_auth, hau] at h
          rw [← h.1.2, ← h.1.1]
          simp
  · intro st a
    unfold dict_mongodb_open
    rw [my_connect_fail st a]
  · intro st name c a iters hc
    cases c with
    | false => simp [dict_mongodb_lookup, hc, my_connect_fail]
    | true =>
      cases hau : st.auth with
      | false => simp [dict_mongodb_lookup, hc, dict_mongodb_my_connect, dict_mongodb_auth, hau]
      | true =>
        cases a <;>
          simp [dict_mongodb_lookup, hc, dict_mongodb_my_connect, dict_mongodb_auth, hau]

/-- Witness for the C10 theorem at concrete inputs. -/
theorem connected_flag_faithful_witness :
    dict_mongodb_my_connect cfgSt false true =
      (some (.errRetry, { cfgSt with connected := false, error := .errRetry }),
        [.connectAttempt]) ∧
    (({ cfgSt with connected := true, error := DictError.errNone } :
        DICT_MONGODB).connected = true ↔ (DictError.errNone = DictError.errNone)) ∧
    (dict_mongodb_lookup { cfgSt with connected := false }
        ['k'] true true []).2.head? = some .connectAttempt :=
  ⟨connected_flag_faithful.1 cfgSt true,
   (connected_flag_faithful.2.1 cfgSt true true DictError.errNone
     { cfgSt with connected := true, error := DictError.errNone }
     [MongoEvent.connectAttempt] (by decide)).1,
   connected_flag_faithful.2.2.2 { cfgSt with connected := false }
     ['k'] true true [] rfl⟩

end Mongo
